import Mathlib

/-!
# Verification of the quad-mod LFO engine (src/firmware/quad_MOD.ino)

Shallow embedding of the waveform engine of the quad-mod firmware.
Floating-point state (`float` phase accumulators, frequencies, slope
values) is modelled by exact rationals `ℚ`; the analog-pot exponential
frequency mapping, which uses `powf`, is modelled over `ℝ` with real
exponentiation.  C integer casts are modelled explicitly:
`(uint16_t)x` on a non-negative float is floor followed by reduction
modulo 2^16, `(uint8_t)x` is floor followed by reduction modulo 2^8.
Arduino `random(n)` / `random(a,b)` draws are passed in as explicit
arguments, with their range constraints as hypotheses where needed.
-/

namespace QuadMod

/-- `TABLE_SIZE` from the firmware: all three wave tables have 256 entries. -/
def TABLE_SIZE : ℕ := 256

/-- `UPDATE_INTERVAL_US` from the firmware: one engine tick every 400 µs. -/
def UPDATE_INTERVAL_US : ℕ := 400

/-- `sampleRate` as computed inside `updateLFO`: `1000000.0f / UPDATE_INTERVAL_US`. -/
def sampleRate : ℚ := 1000000 / (UPDATE_INTERVAL_US : ℚ)

/-- `updateLFO` from the firmware: adds `freq * (TABLE_SIZE / sampleRate)` to the
phase accumulator.  No wrap is performed here; the accumulator grows without bound. -/
def updateLFO (phaseIndex : ℚ) (freq : ℚ) : ℚ :=
  phaseIndex + freq * ((TABLE_SIZE : ℚ) / sampleRate)

/-- The `(uint16_t)phaseIndex % TABLE_SIZE` conversion in `getWaveValue` (and in the
helpers `getTriSineValue`, `getAMSineValue`, `getSwarmValue`, `getPendulumValue`):
the float accumulator is truncated to an integer (floor, since phases are
non-negative) which the 16-bit unsigned cast reduces modulo 2^16, and the result
is reduced modulo the table size. -/
def tableIndex (phaseIndex : ℚ) : ℕ :=
  (Int.toNat ⌊phaseIndex⌋ % 65536) % TABLE_SIZE

/-- The `(uint8_t)` cast applied to a float value (used on
`randomSlope[ch].currentValue` when it is emitted or read as a modulation
sample): floor, then reduction modulo 2^8. -/
def toUInt8 (v : ℚ) : ℕ :=
  Int.toNat ⌊v⌋ % 256

/-- `triangleWave` PROGMEM table from the firmware. -/
def triangleWave : List ℕ := [
  0, 2, 4, 6, 8, 10, 12, 14, 16, 18, 20, 22, 24, 26, 28, 30,
  32, 34, 36, 38, 40, 42, 44, 46, 48, 50, 52, 54, 56, 58, 60, 62,
  64, 66, 68, 70, 72, 74, 76, 78, 80, 82, 84, 86, 88, 90, 92, 94,
  96, 98, 100, 102, 104, 106, 108, 110, 112, 114, 116, 118, 120, 122, 124, 126,
  128, 130, 132, 134, 136, 138, 140, 142, 144, 146, 148, 150, 152, 154, 156, 158,
  160, 162, 164, 166, 168, 170, 172, 174, 176, 178, 180, 182, 184, 186, 188, 190,
  192, 194, 196, 198, 200, 202, 204, 206, 208, 210, 212, 214, 216, 218, 220, 222,
  224, 226, 228, 230, 232, 234, 236, 238, 240, 242, 244, 246, 248, 250, 252, 254,
  255, 253, 251, 249, 247, 245, 243, 241, 239, 237, 235, 233, 231, 229, 227, 225,
  223, 221, 219, 217, 215, 213, 211, 209, 207, 205, 203, 201, 199, 197, 195, 193,
  191, 189, 187, 185, 183, 181, 179, 177, 175, 173, 171, 169, 167, 165, 163, 161,
  159, 157, 155, 153, 151, 149, 147, 145, 143, 141, 139, 137, 135, 133, 131, 129,
  127, 125, 123, 121, 119, 117, 115, 113, 111, 109, 107, 105, 103, 101, 99, 97,
  95, 93, 91, 89, 87, 85, 83, 81, 79, 77, 75, 73, 71, 69, 67, 65,
  63, 61, 59, 57, 55, 53, 51, 49, 47, 45, 43, 41, 39, 37, 35, 33,
  31, 29, 27, 25, 23, 21, 19, 17, 15, 13, 11, 9, 7, 5, 3, 1
]

/-- `squareWave` PROGMEM table from the firmware. -/
def squareWave : List ℕ := [
  0, 0, 0, 0, 0, 0, 0, 0, 0, 0, 0, 0, 0, 0, 0, 0,
  0, 0, 0, 0, 0, 0, 0, 0, 0, 0, 0, 0, 0, 0, 0, 0,
  0, 0, 0, 0, 0, 0, 0, 0, 0, 0, 0, 0, 0, 0, 0, 0,
  0, 0, 0, 0, 0, 0, 0, 0, 0, 0, 0, 0, 0, 0, 0, 0,
  0, 0, 0, 0, 0, 0, 0, 0, 0, 0, 0, 0, 0, 0, 0, 0,
  0, 0, 0, 0, 0, 0, 0, 0, 0, 0, 0, 0, 0, 0, 0, 0,
  0, 0, 0, 0, 0, 0, 0, 0, 0, 0, 0, 0, 0, 0, 0, 0,
  0, 0, 0, 0, 0, 0, 0, 0, 0, 0, 0, 0, 0, 0, 0, 0,
  255, 255, 255, 255, 255, 255, 255, 255, 255, 255, 255, 255, 255, 255, 255, 255,
  255, 255, 255, 255, 255, 255, 255, 255, 255, 255, 255, 255, 255, 255, 255, 255,
  255, 255, 255, 255, 255, 255, 255, 255, 255, 255, 255, 255, 255, 255, 255, 255,
  255, 255, 255, 255, 255, 255, 255, 255, 255, 255, 255, 255, 255, 255, 255, 255,
  255, 255, 255, 255, 255, 255, 255, 255, 255, 255, 255, 255, 255, 255, 255, 255,
  255, 255, 255, 255, 255, 255, 255, 255, 255, 255, 255, 255, 255, 255, 255, 255,
  255, 255, 255, 255, 255, 255, 255, 255, 255, 255, 255, 255, 255, 255, 255, 255,
  255, 255, 255, 255, 255, 255, 255, 255, 255, 255, 255, 255, 255, 255, 255, 255
]

/-- `sineWave` PROGMEM table from the firmware. -/
def sineWave : List ℕ := [
  127, 130, 133, 136, 139, 142, 145, 148, 151, 154, 157, 160, 163, 166, 169, 172,
  175, 178, 180, 183, 186, 189, 192, 194, 197, 200, 202, 205, 207, 210, 212, 215,
  217, 219, 222, 224, 226, 228, 230, 232, 234, 236, 237, 239, 240, 242, 243, 245,
  246, 247, 248, 249, 250, 251, 252, 252, 253, 253, 254, 254, 254, 254, 254, 254,
  255, 254, 254, 254, 254, 254, 254, 253, 253, 252, 252, 251, 250, 249, 248, 247,
  246, 245, 243, 242, 240, 239, 237, 236, 234, 232, 230, 228, 226, 224, 222, 219,
  217, 215, 212, 210, 207, 205, 202, 200, 197, 194, 192, 189, 186, 183, 180, 178,
  175, 172, 169, 166, 163, 160, 157, 154, 151, 148, 145, 142, 139, 136, 133, 130,
  127, 124, 121, 118, 115, 112, 109, 106, 103, 100, 97, 94, 91, 88, 85, 82,
  79, 76, 74, 71, 68, 65, 62, 60, 57, 54, 52, 49, 47, 44, 42, 39,
  37, 35, 32, 30, 28, 26, 24, 22, 20, 18, 17, 15, 14, 12, 11, 9,
  8, 7, 6, 5, 4, 3, 2, 2, 1, 1, 0, 0, 0, 0, 0, 0,
  0, 0, 0, 0, 0, 0, 0, 1, 1, 2, 2, 3, 4, 5, 6, 7,
  8, 9, 11, 12, 14, 15, 17, 18, 20, 22, 24, 26, 28, 30, 32, 35,
  37, 39, 42, 44, 47, 49, 52, 54, 57, 60, 62, 65, 68, 71, 74, 76,
  79, 82, 85, 88, 91, 94, 97, 100, 103, 106, 109, 112, 115, 118, 121, 124
]

/-- `getWaveValue` from the firmware: table lookup dispatched on the basic
waveform kind (0 = triangle, 1 = square, 2 = sine, anything else returns 0). -/
def getWaveValue (waveTypeSel : ℕ) (phaseIndex : ℚ) : ℕ :=
  if waveTypeSel = 0 then triangleWave.getD (tableIndex phaseIndex) 0
  else if waveTypeSel = 1 then squareWave.getD (tableIndex phaseIndex) 0
  else if waveTypeSel = 2 then sineWave.getD (tableIndex phaseIndex) 0
  else 0

/-- The cross-modulation ring mapping used identically in `updateFMTri` and
`getAMSineValue`: `uint8_t modSource = (channel + 3) % 4`. -/
def modSource (channel : ℕ) : ℕ :=
  (channel + 3) % 4

/-- The modulation-source sample computation shared verbatim by `updateFMTri`
and `getAMSineValue`: if the ring neighbor runs Random Slope (kind 3) its
`currentValue` is used (cast to `uint8_t`); otherwise the neighbor's base
waveform is read, collapsing every kind ≥ 4 to the triangle table. -/
def modSample (waveType : ℕ → ℕ) (slopeCurrentValue : ℕ → ℚ) (lfoIndex : ℕ → ℚ)
    (channel : ℕ) : ℕ :=
  let src := modSource channel
  if waveType src = 3 then
    toUInt8 (slopeCurrentValue src)
  else
    getWaveValue (if 4 ≤ waveType src then 0 else waveType src) (lfoIndex src)

/-- Arduino's `constrain(amt, low, high)` macro:
`amt < low ? low : (amt > high ? high : amt)`. -/
def constrain (amt low high : ℚ) : ℚ :=
  if amt < low then low else if high < amt then high else amt

/-- The instantaneous FM frequency from `updateFMTri`: the modulation sample is
converted to bipolar `[-1, 1]`, scaled to a ±20 Hz additive deviation, added to
the base frequency, and clamped to `[0.01, 25.0]` Hz. -/
def fmFreq (baseFreq : ℚ) (modValue : ℕ) : ℚ :=
  let modNorm : ℚ := ((modValue : ℚ) - 127.5) / 127.5
  let fmDeviation : ℚ := modNorm * 20.0
  constrain (baseFreq + fmDeviation) 0.01 25.0

/-- `updateFMTri` from the firmware, returning the updated primary phase of
`channel`: the phase accumulator is driven by the clamped FM frequency. -/
def updateFMTri (waveType : ℕ → ℕ) (slopeCurrentValue : ℕ → ℚ) (lfoIndex : ℕ → ℚ)
    (channel : ℕ) (baseFreq : ℚ) : ℚ :=
  updateLFO (lfoIndex channel)
    (fmFreq baseFreq (modSample waveType slopeCurrentValue lfoIndex channel))

/-- `readFrequency` from the firmware, as a function of the already-normalized
control value `norm = analogRead / 1023 ∈ [0, 1]`:
exponential sweep `fMin * (fMax / fMin) ^ norm` with `fMin = 0.05`, `fMax = 20.0`. -/
noncomputable def readFrequency (norm : ℝ) : ℝ :=
  let fMin : ℝ := 0.05
  let fMax : ℝ := 20.0
  fMin * (fMax / fMin) ^ norm

/-- The EEPROM restore step in `setup()`:
`uint8_t storedWave = EEPROM.read(i); if (storedWave <= 11) waveType[i] = storedWave;`
— the stored value replaces the default only when it is at most 11. -/
def applyStoredWave (defaultWave storedWave : ℕ) : ℕ :=
  if storedWave ≤ 11 then storedWave else defaultWave

/-- Per-channel Random Slope state (`struct RandomSlopeData`); the wall-clock
`previousMillis` field is externalized into the `retargetDue` flag of
`updateRandomSlope`. -/
structure RandomSlopeData where
  currentValue : ℚ
  targetValue : ℚ
  slopeStep : ℚ
deriving DecidableEq

/-- Random Slope state after `setup()`: all fields zero. -/
def initRandomSlope : RandomSlopeData :=
  { currentValue := 0, targetValue := 0, slopeStep := 0 }

/-- The per-tick part of `updateRandomSlope`: advance `currentValue` by
`slopeStep` and clamp to `targetValue` on overshoot, with the sign-aware
comparison from the firmware. -/
def slopeTick (s : RandomSlopeData) : RandomSlopeData :=
  let cv := s.currentValue + s.slopeStep
  if (0 < s.slopeStep ∧ s.targetValue ≤ cv) ∨ (s.slopeStep < 0 ∧ cv ≤ s.targetValue) then
    { s with currentValue := s.targetValue }
  else
    { s with currentValue := cv }

/-- The retarget part of `updateRandomSlope`, run when the wall clock shows at
least `1000 / frequency` milliseconds since the previous retarget: draws
`targetValue = random(0, 256)` and sets
`slopeStep = (targetValue - currentValue) / (1000.0 / frequency)`. -/
def slopeRetarget (s : RandomSlopeData) (rnd : ℕ) (frequency : ℚ) : RandomSlopeData :=
  { currentValue := s.currentValue
    targetValue := (rnd : ℚ)
    slopeStep := ((rnd : ℚ) - s.currentValue) / (1000 / frequency) }

/-- One full tick of `updateRandomSlope`: retarget first when due, then advance. -/
def updateRandomSlope (s : RandomSlopeData) (retargetDue : Bool) (rnd : ℕ)
    (frequency : ℚ) : RandomSlopeData :=
  slopeTick (if retargetDue then slopeRetarget s rnd frequency else s)

/-- Per-channel Ratchet Triangle state (`struct RatchetTriData`). -/
structure RatchetTriData where
  ratchetCounter : ℕ
  burstDuration : ℕ
  pauseDuration : ℕ
  pauseCounter : ℕ
  inPause : Bool
  burstCount : ℕ
  maxBursts : ℕ
  fastFreqMultiplier : ℚ
deriving DecidableEq

/-- `updateRatchetTri` from the firmware, returning the new state and the new
primary phase.  The random draws are passed in explicitly:
`rBurst = random(100)`, `rSpeed = random(600)`, `rMaxB = random(4)`,
`rLongP = random(400)`, `rShortP = random(100)`, `rStutterChance = random(0, 100)`,
`rStutterLen = random(20)`. -/
def updateRatchetTri (r : RatchetTriData) (phase baseFreq : ℚ)
    (rBurst rSpeed rMaxB rLongP rShortP rStutterChance rStutterLen : ℕ) :
    RatchetTriData × ℚ :=
  if r.inPause then
    if r.pauseCounter + 1 ≥ r.pauseDuration then
      ({ r with inPause := false
                pauseCounter := 0
                ratchetCounter := 0
                burstCount := r.burstCount + 1
                burstDuration := 30 + rBurst
                fastFreqMultiplier := 2.0 + (rSpeed : ℚ) / 100 }, phase)
    else
      ({ r with pauseCounter := r.pauseCounter + 1 }, phase)
  else
    let phase2 := updateLFO phase (baseFreq * r.fastFreqMultiplier)
    if r.ratchetCounter + 1 ≥ r.burstDuration then
      let r2 :=
        if r.burstCount ≥ r.maxBursts then
          { r with burstCount := 0, maxBursts := 2 + rMaxB, pauseDuration := 200 + rLongP }
        else
          { r with pauseDuration := 50 + rShortP }
      let r3 := { r2 with inPause := true, ratchetCounter := 0, pauseCounter := 0 }
      if rStutterChance < 10 then
        ({ r3 with pauseDuration := 10 + rStutterLen }, phase2)
      else
        (r3, phase2)
    else
      ({ r with ratchetCounter := r.ratchetCounter + 1 }, phase2)

/-- Per-channel Gravity state (`struct GravityWellData`); the unused
`dominantWell` field is omitted, and `momentum` stores the target frequency,
exactly as in the firmware. -/
structure GravityWellData where
  currentFreq : ℚ
  momentum : ℚ
deriving DecidableEq

/-- `updateGravityWells` from the firmware, returning the new state and the new
primary phase.  `pickNewTarget` stands for the 0.4% draw `random(0, 1000) < 4`,
and `rTarget = random(0, 1000)` is the draw for the new target multiplier. -/
def updateGravityWells (gw : GravityWellData) (baseFreq phase : ℚ)
    (pickNewTarget : Bool) (rTarget : ℕ) : GravityWellData × ℚ :=
  let minFreqMultiplier : ℚ := 0.1
  let maxFreqMultiplier : ℚ := 5.0
  let pullStrength : ℚ := 0.18
  let gw1 :=
    if pickNewTarget then
      { gw with momentum :=
          baseFreq * (minFreqMultiplier +
            ((rTarget : ℚ) / 1000) * (maxFreqMultiplier - minFreqMultiplier)) }
    else gw
  let targetFreq := gw1.momentum
  let cf1 := gw1.currentFreq + (targetFreq - gw1.currentFreq) * pullStrength
  let cf2 := if cf1 > baseFreq * maxFreqMultiplier then baseFreq * maxFreqMultiplier else cf1
  let cf3 := if cf2 < baseFreq * minFreqMultiplier then baseFreq * minFreqMultiplier else cf2
  ({ gw1 with currentFreq := cf3 }, updateLFO phase cf3)

/-- Phase of a basic-waveform channel after `n` ticks at constant frequency
`freq`, starting from phase 0: `loop` calls `updateLFO` once per tick for
waveform kinds 0–2. -/
def phaseAfter (freq : ℚ) (n : ℕ) : ℚ :=
  (fun p => updateLFO p freq)^[n] 0

end QuadMod

namespace QuadMod

lemma phaseAfter_eq (freq : ℚ) (n : ℕ) :
    phaseAfter freq n = (n : ℚ) * (freq * ((TABLE_SIZE : ℚ) / sampleRate)) := by
  induction n with
  | zero => simp [phaseAfter]
  | succ k ih =>
      rw [phaseAfter, Function.iterate_succ_apply', ← phaseAfter, ih, updateLFO]
      push_cast
      ring

end QuadMod

/-- C1: `updateLFO` adds exactly `freq * 256 / sampleRate` with
`sampleRate = 1e6 / 400 = 2500` and performs no wrap, so a Triangle channel at a
constant 1.0 Hz starting from phase 0 reaches phase accumulator exactly
`1.0 * 256 / 2500 * 640 = 65.536` after 640 ticks, and the table read index
there is `65`. -/
theorem c1_phase_accumulator_640_ticks :
    (∀ p f : ℚ, QuadMod.updateLFO p f = p + f * 256 / QuadMod.sampleRate) ∧
    QuadMod.sampleRate = 2500 ∧
    QuadMod.phaseAfter 1 640 = 65.536 ∧
    QuadMod.tableIndex (QuadMod.phaseAfter 1 640) = 65 := by
  have hrate : QuadMod.sampleRate = 2500 := by
    norm_num [QuadMod.sampleRate, QuadMod.UPDATE_INTERVAL_US]
  have hphase : QuadMod.phaseAfter 1 640 = 65.536 := by
    rw [QuadMod.phaseAfter_eq, hrate]
    norm_num [QuadMod.TABLE_SIZE]
  refine ⟨?_, hrate, hphase, ?_⟩
  · intro p f
    rw [QuadMod.updateLFO]
    norm_num [QuadMod.TABLE_SIZE]
    ring
  · rw [hphase]
    have hfloor : ⌊(65.536 : ℚ)⌋ = 65 := by
      rw [Int.floor_eq_iff]
      norm_num
    rw [QuadMod.tableIndex, hfloor]
    rfl

/-- C8: for every non-negative phase value the table read index equals
`floor(phase) mod 256` and hence lies in `[0, 255]`: the 16-bit truncating
conversion followed by `% 256` agrees with floor-then-mod-256 because
256 divides 2^16. -/
theorem c8_table_index_mod_256 (phase : ℚ) (h : 0 ≤ phase) :
    QuadMod.tableIndex phase = Int.toNat ⌊phase⌋ % 256 ∧
    QuadMod.tableIndex phase < 256 := by
  constructor
  · rw [QuadMod.tableIndex, QuadMod.TABLE_SIZE]
    exact Nat.mod_mod_of_dvd _ (by norm_num)
  · exact Nat.mod_lt _ (by norm_num [QuadMod.TABLE_SIZE])

/-- Witness for C8 at the concrete phase 65.536. -/
theorem c8_table_index_mod_256_witness :
    QuadMod.tableIndex 65.536 = Int.toNat ⌊(65.536 : ℚ)⌋ % 256 ∧
    QuadMod.tableIndex 65.536 < 256 :=
  c8_table_index_mod_256 65.536 (by norm_num)

/-- C2: the normalized-control-to-Hertz mapping is
`f = 0.05 * (20.0 / 0.05) ^ n`, strictly monotonic on `[0, 1]`, and maps the
endpoints to exactly 0.05 Hz and 20.0 Hz. -/
theorem c2_frequency_mapping (n1 n2 : ℝ) (h0 : 0 ≤ n1) (h1 : n2 ≤ 1) (hlt : n1 < n2) :
    QuadMod.readFrequency n1 = 0.05 * (20.0 / 0.05) ^ n1 ∧
    QuadMod.readFrequency n1 < QuadMod.readFrequency n2 ∧
    QuadMod.readFrequency 0 = 0.05 ∧
    QuadMod.readFrequency 1 = 20.0 := by
  have hbase : (1 : ℝ) < 20.0 / 0.05 := by norm_num
  refine ⟨rfl, ?_, ?_, ?_⟩
  · have hexp : (20.0 / 0.05 : ℝ) ^ n1 < (20.0 / 0.05 : ℝ) ^ n2 :=
      (Real.rpow_lt_rpow_left_iff hbase).mpr hlt
    simpa [QuadMod.readFrequency] using mul_lt_mul_of_pos_left hexp (by norm_num : (0:ℝ) < 0.05)
  · simp [QuadMod.readFrequency]
  · norm_num [QuadMod.readFrequency, Real.rpow_one]

/-- Witness for C2 at the endpoints 0 and 1. -/
theorem c2_frequency_mapping_witness :
    QuadMod.readFrequency 0 = 0.05 * (20.0 / 0.05) ^ (0 : ℝ) ∧
    QuadMod.readFrequency 0 < QuadMod.readFrequency 1 ∧
    QuadMod.readFrequency 0 = 0.05 ∧
    QuadMod.readFrequency 1 = 20.0 :=
  c2_frequency_mapping 0 1 (by norm_num) (by norm_num) (by norm_num)

/-- C9: at startup a stored waveform value is applied only when it lies in
`[0, 11]`; any larger stored byte is silently ignored and the channel keeps its
default waveform kind. -/
theorem c9_stored_waveform_validation (defaultWave storedWave : ℕ) :
    (storedWave ≤ 11 → QuadMod.applyStoredWave defaultWave storedWave = storedWave) ∧
    (11 < storedWave → QuadMod.applyStoredWave defaultWave storedWave = defaultWave) := by
  constructor
  · intro h
    simp [QuadMod.applyStoredWave, h]
  · intro h
    simp [QuadMod.applyStoredWave, Nat.not_le.mpr h]

/-- Witness for C9: a valid stored value 5 is applied, an out-of-range stored
value 200 is ignored and the default 0 is retained. -/
theorem c9_stored_waveform_validation_witness :
    QuadMod.applyStoredWave 0 5 = 5 ∧ QuadMod.applyStoredWave 0 200 = 0 :=
  ⟨(c9_stored_waveform_validation 0 5).1 (by norm_num),
   (c9_stored_waveform_validation 0 200).2 (by norm_num)⟩

/-- C6: each FM tick drives the phase accumulator with an instantaneous
frequency equal to the base frequency plus the modulation sample converted to
bipolar `[-1, 1]` and scaled by ±20 Hz, clamped to `[0.01, 25.0]` Hz; the
driven frequency therefore always lies in `[0.01, 25.0]` Hz. -/
theorem c6_fm_driven_frequency (waveType : ℕ → ℕ) (slopeCurrentValue lfoIndex : ℕ → ℚ)
    (channel : ℕ) (baseFreq : ℚ) (modValue : ℕ) :
    QuadMod.fmFreq baseFreq modValue =
      QuadMod.constrain (baseFreq + (((modValue : ℚ) - 127.5) / 127.5) * 20.0) 0.01 25.0 ∧
    0.01 ≤ QuadMod.fmFreq baseFreq modValue ∧
    QuadMod.fmFreq baseFreq modValue ≤ 25.0 ∧
    QuadMod.updateFMTri waveType slopeCurrentValue lfoIndex channel baseFreq =
      QuadMod.updateLFO (lfoIndex channel)
        (QuadMod.fmFreq baseFreq
          (QuadMod.modSample waveType slopeCurrentValue lfoIndex channel)) := by
  refine ⟨rfl, ?_, ?_, rfl⟩ <;>
    · rw [QuadMod.fmFreq, QuadMod.constrain]
      split_ifs with h1 h2
      · norm_num
      · norm_num
      · norm_num at h1 h2 ⊢ <;> linarith

/-- C5: after every Gravity update step, `currentFreq` lies within
`[0.1 * baseFreq, 5.0 * baseFreq]` for that tick's base frequency, whatever the
randomly drawn target and the previous state were. -/
theorem c5_gravity_frequency_bounds (gw : QuadMod.GravityWellData)
    (baseFreq phase : ℚ) (pickNewTarget : Bool) (rTarget : ℕ) (hb : 0 ≤ baseFreq) :
    0.1 * baseFreq ≤
      (QuadMod.updateGravityWells gw baseFreq phase pickNewTarget rTarget).1.currentFreq ∧
    (QuadMod.updateGravityWells gw baseFreq phase pickNewTarget rTarget).1.currentFreq ≤
      5.0 * baseFreq := by
  rw [QuadMod.updateGravityWells]
  split_ifs <;> constructor <;> simp only [] <;> nlinarith

/-- Witness for C5 at a concrete state and base frequency. -/
theorem c5_gravity_frequency_bounds_witness :
    0.1 * (1 : ℚ) ≤
      (QuadMod.updateGravityWells ⟨1, 1⟩ 1 0 false 0).1.currentFreq ∧
    (QuadMod.updateGravityWells ⟨1, 1⟩ 1 0 false 0).1.currentFreq ≤ 5.0 * (1 : ℚ) :=
  c5_gravity_frequency_bounds ⟨1, 1⟩ 1 0 false 0 (by norm_num)

/-- C3: for every channel 0–3 running FM or AM, the cross-modulation sample is
taken from channel `(i + 3) mod 4` and never from channel `i` itself; the
sample is the neighbor's Random-Slope `currentValue` when the neighbor runs
kind 3, the neighbor's own table lookup for kinds 0–2, and a triangle-table
lookup on the neighbor's primary phase for every kind ≥ 4. -/
theorem c3_cross_modulation_source (channel : ℕ) (hch : channel < 4)
    (waveType : ℕ → ℕ) (slopeCurrentValue lfoIndex : ℕ → ℚ) :
    (QuadMod.modSource channel = (channel + 3) % 4 ∧ QuadMod.modSource channel ≠ channel) ∧
    (waveType (QuadMod.modSource channel) = 3 →
      QuadMod.modSample waveType slopeCurrentValue lfoIndex channel =
        QuadMod.toUInt8 (slopeCurrentValue (QuadMod.modSource channel))) ∧
    (waveType (QuadMod.modSource channel) < 3 →
      QuadMod.modSample waveType slopeCurrentValue lfoIndex channel =
        QuadMod.getWaveValue (waveType (QuadMod.modSource channel))
          (lfoIndex (QuadMod.modSource channel))) ∧
    (4 ≤ waveType (QuadMod.modSource channel) →
      QuadMod.modSample waveType slopeCurrentValue lfoIndex channel =
        QuadMod.getWaveValue 0 (lfoIndex (QuadMod.modSource channel))) := by
  refine ⟨⟨rfl, ?_⟩, ?_, ?_, ?_⟩
  · interval_cases channel <;> decide
  · intro h
    simp [QuadMod.modSample, h]
  · intro h
    rw [QuadMod.modSample]
    simp only [if_neg (by omega : ¬ waveType (QuadMod.modSource channel) = 3),
      if_neg (by omega : ¬ 4 ≤ waveType (QuadMod.modSource channel))]
  · intro h
    rw [QuadMod.modSample]
    simp only [if_neg (by omega : ¬ waveType (QuadMod.modSource channel) = 3), if_pos h]

/-- Witness for C3 on channel 0 with the neighbor (channel 3) running
Random Slope. -/
theorem c3_cross_modulation_source_witness :
    (QuadMod.modSource 0 = (0 + 3) % 4 ∧ QuadMod.modSource 0 ≠ 0) ∧
    ((fun _ => 3) (QuadMod.modSource 0) = 3 →
      QuadMod.modSample (fun _ => 3) (fun _ => 200) (fun _ => 0) 0 =
        QuadMod.toUInt8 ((fun _ => (200 : ℚ)) (QuadMod.modSource 0))) ∧
    ((fun _ => 3) (QuadMod.modSource 0) < 3 →
      QuadMod.modSample (fun _ => 3) (fun _ => 200) (fun _ => 0) 0 =
        QuadMod.getWaveValue ((fun _ => 3) (QuadMod.modSource 0))
          ((fun _ => (0 : ℚ)) (QuadMod.modSource 0))) ∧
    (4 ≤ (fun _ => 3) (QuadMod.modSource 0) →
      QuadMod.modSample (fun _ => 3) (fun _ => 200) (fun _ => 0) 0 =
        QuadMod.getWaveValue 0 ((fun _ => (0 : ℚ)) (QuadMod.modSource 0))) :=
  c3_cross_modulation_source 0 (by norm_num) (fun _ => 3) (fun _ => 200) (fun _ => 0)

/-- C4: in the Paused state the Ratchet Triangle update leaves the primary
phase accumulator unchanged, and the counter bounds
`pauseCounter < pauseDuration` and `ratchetCounter < burstDuration` (together
with positivity of both durations) are preserved by every tick, whatever the
random draws are. -/
theorem c4_ratchet_pause_and_counters (r : QuadMod.RatchetTriData) (phase baseFreq : ℚ)
    (rBurst rSpeed rMaxB rLongP rShortP rStutterChance rStutterLen : ℕ)
    (hbd : 0 < r.burstDuration) (hpd : 0 < r.pauseDuration)
    (hpc : r.pauseCounter < r.pauseDuration) (hrc : r.ratchetCounter < r.burstDuration) :
    (r.inPause = true →
      (QuadMod.updateRatchetTri r phase baseFreq rBurst rSpeed rMaxB rLongP rShortP
        rStutterChance rStutterLen).2 = phase) ∧
    0 < (QuadMod.updateRatchetTri r phase baseFreq rBurst rSpeed rMaxB rLongP rShortP
        rStutterChance rStutterLen).1.burstDuration ∧
    0 < (QuadMod.updateRatchetTri r phase baseFreq rBurst rSpeed rMaxB rLongP rShortP
        rStutterChance rStutterLen).1.pauseDuration ∧
    (QuadMod.updateRatchetTri r phase baseFreq rBurst rSpeed rMaxB rLongP rShortP
        rStutterChance rStutterLen).1.pauseCounter <
      (QuadMod.updateRatchetTri r phase baseFreq rBurst rSpeed rMaxB rLongP rShortP
        rStutterChance rStutterLen).1.pauseDuration ∧
    (QuadMod.updateRatchetTri r phase baseFreq rBurst rSpeed rMaxB rLongP rShortP
        rStutterChance rStutterLen).1.ratchetCounter <
      (QuadMod.updateRatchetTri r phase baseFreq rBurst rSpeed rMaxB rLongP rShortP
        rStutterChance rStutterLen).1.burstDuration := by
  rcases r with ⟨rc, bd, pd, pc, ip, bc, mb, fm⟩
  simp only [QuadMod.RatchetTriData.burstDuration, QuadMod.RatchetTriData.pauseDuration,
    QuadMod.RatchetTriData.pauseCounter, QuadMod.RatchetTriData.ratchetCounter,
    QuadMod.RatchetTriData.inPause] at *
  cases ip <;> dsimp only [QuadMod.updateRatchetTri] <;> split_ifs <;>
    refine ⟨?_, ?_, ?_, ?_, ?_⟩ <;> simp_all <;> omega

/-- Witness for C4 at a concrete paused state. -/
theorem c4_ratchet_pause_and_counters_witness :
    ((⟨0, 50, 100, 0, true, 0, 2, 2⟩ : QuadMod.RatchetTriData).inPause = true →
      (QuadMod.updateRatchetTri ⟨0, 50, 100, 0, true, 0, 2, 2⟩ 7 1 0 0 0 0 0 0 0).2 = 7) ∧
    0 < (QuadMod.updateRatchetTri ⟨0, 50, 100, 0, true, 0, 2, 2⟩ 7 1 0 0 0 0 0 0 0).1.burstDuration ∧
    0 < (QuadMod.updateRatchetTri ⟨0, 50, 100, 0, true, 0, 2, 2⟩ 7 1 0 0 0 0 0 0 0).1.pauseDuration ∧
    (QuadMod.updateRatchetTri ⟨0, 50, 100, 0, true, 0, 2, 2⟩ 7 1 0 0 0 0 0 0 0).1.pauseCounter <
      (QuadMod.updateRatchetTri ⟨0, 50, 100, 0, true, 0, 2, 2⟩ 7 1 0 0 0 0 0 0 0).1.pauseDuration ∧
    (QuadMod.updateRatchetTri ⟨0, 50, 100, 0, true, 0, 2, 2⟩ 7 1 0 0 0 0 0 0 0).1.ratchetCounter <
      (QuadMod.updateRatchetTri ⟨0, 50, 100, 0, true, 0, 2, 2⟩ 7 1 0 0 0 0 0 0 0).1.burstDuration :=
  c4_ratchet_pause_and_counters ⟨0, 50, 100, 0, true, 0, 2, 2⟩ 7 1 0 0 0 0 0 0 0
    (by norm_num) (by norm_num) (by norm_num) (by norm_num)

namespace QuadMod

lemma slopeTick_mk_up (c0 t d : ℚ) (hd : 0 < d) (hle : c0 ≤ t) (k : ℕ) :
    slopeTick^[k] ⟨c0, t, d⟩ = ⟨min (c0 + (k : ℚ) * d) t, t, d⟩ := by
  induction k with
  | zero => simp [min_eq_left hle]
  | succ n ih =>
      rw [Function.iterate_succ_apply', ih]
      simp only [slopeTick, RandomSlopeData.mk.injEq]
      split_ifs with h
      · have hcv : t ≤ min (c0 + (n : ℚ) * d) t + d := by
          rcases h with ⟨_, h2⟩ | ⟨h1, _⟩
          · exact h2
          · exact absurd h1 (by linarith)
        have hmin : min (c0 + (n : ℚ) * d) t ≤ c0 + (n : ℚ) * d := min_le_left _ _
        have hexpand : c0 + ((n : ℚ) + 1) * d = c0 + (n : ℚ) * d + d := by ring
        push_cast
        rw [min_eq_right (by rw [hexpand]; linarith)]
      · have hcv : min (c0 + (n : ℚ) * d) t + d < t := by
          by_contra hcon
          exact h (Or.inl ⟨hd, by linarith⟩)
        have hx : c0 + (n : ℚ) * d ≤ t := by
          by_contra hx
          push_neg at hx
          rw [min_eq_right (le_of_lt hx)] at hcv
          linarith
        have hexpand : c0 + ((n : ℚ) + 1) * d = c0 + (n : ℚ) * d + d := by ring
        rw [min_eq_left hx] at hcv ⊢
        push_cast
        rw [min_eq_left (by rw [hexpand]; linarith)]
        ring

lemma slopeTick_mk_down (c0 t d : ℚ) (hd : d < 0) (hle : t ≤ c0) (k : ℕ) :
    slopeTick^[k] ⟨c0, t, d⟩ = ⟨max (c0 + (k : ℚ) * d) t, t, d⟩ := by
  induction k with
  | zero => simp [max_eq_left hle]
  | succ n ih =>
      rw [Function.iterate_succ_apply', ih]
      simp only [slopeTick, RandomSlopeData.mk.injEq]
      split_ifs with h
      · have hcv : max (c0 + (n : ℚ) * d) t + d ≤ t := by
          rcases h with ⟨h1, _⟩ | ⟨_, h2⟩
          · exact absurd h1 (by linarith)
          · exact h2
        have hmax : c0 + (n : ℚ) * d ≤ max (c0 + (n : ℚ) * d) t := le_max_left _ _
        have hexpand : c0 + ((n : ℚ) + 1) * d = c0 + (n : ℚ) * d + d := by ring
        push_cast
        rw [max_eq_right (by rw [hexpand]; linarith)]
      · have hcv : t < max (c0 + (n : ℚ) * d) t + d := by
          by_contra hcon
          push_neg at hcon
          exact h (Or.inr ⟨hd, hcon⟩)
        have hx : t ≤ c0 + (n : ℚ) * d := by
          by_contra hx
          push_neg at hx
          rw [max_eq_right (le_of_lt hx)] at hcv
          linarith
        have hexpand : c0 + ((n : ℚ) + 1) * d = c0 + (n : ℚ) * d + d := by ring
        rw [max_eq_left hx] at hcv ⊢
        push_cast
        rw [max_eq_left (by rw [hexpand]; linarith)]
        ring

lemma slopeTick_mk_zero (c0 t : ℚ) (k : ℕ) :
    slopeTick^[k] ⟨c0, t, 0⟩ = ⟨c0, t, 0⟩ := by
  induction k with
  | zero => rfl
  | succ n ih =>
      rw [Function.iterate_succ_apply', ih]
      simp [slopeTick]

lemma slopeTick_box (s : RandomSlopeData)
    (h0 : 0 ≤ s.currentValue) (h1 : s.currentValue ≤ 255)
    (ht0 : 0 ≤ s.targetValue) (ht1 : s.targetValue ≤ 255) :
    (0 ≤ (slopeTick s).currentValue ∧ (slopeTick s).currentValue ≤ 255) ∧
    (slopeTick s).targetValue = s.targetValue := by
  rcases s with ⟨c, t, d⟩
  dsimp only at h0 h1 ht0 ht1
  simp only [slopeTick]
  split_ifs with h
  · exact ⟨⟨ht0, ht1⟩, rfl⟩
  · push_neg at h
    obtain ⟨ha, hb⟩ := h
    rcases lt_trichotomy d 0 with hd | hd | hd
    · have := hb hd
      exact ⟨⟨by dsimp only; linarith, by dsimp only; linarith⟩, rfl⟩
    · subst hd
      exact ⟨⟨by dsimp only; linarith, by dsimp only; linarith⟩, rfl⟩
    · have := ha hd
      exact ⟨⟨by dsimp only; linarith, by dsimp only; linarith⟩, rfl⟩

end QuadMod

/-- C7 counterexample to the claim as stated: at 1 Hz the retarget period is
`1000 / 1 = 1000` ms, i.e. 2500 ticks of 0.4 ms; starting from `currentValue = 0`
with drawn target 255, `currentValue` already equals the target after only 1000
ticks, when just `1000 * 0.4 = 400` ms of the 1000 ms period have elapsed — so
the ramp does not reach the target exactly at the next retarget instant but
strictly earlier (and then holds). -/
theorem c7_random_slope_counterexample :
    (QuadMod.slopeTick^[1000] (QuadMod.slopeRetarget ⟨0, 0, 0⟩ 255 1)).currentValue = 255 ∧
    (1000 : ℚ) * ((QuadMod.UPDATE_INTERVAL_US : ℚ) / 1000) < 1000 / 1 := by
  constructor
  · have hretarget : QuadMod.slopeRetarget ⟨0, 0, 0⟩ 255 1 =
        (⟨0, 255, 255 / 1000⟩ : QuadMod.RandomSlopeData) := by
      simp only [QuadMod.slopeRetarget, QuadMod.RandomSlopeData.mk.injEq]
      norm_num
    rw [hretarget, QuadMod.slopeTick_mk_up 0 255 (255 / 1000) (by norm_num) (by norm_num) 1000]
    norm_num
  · norm_num [QuadMod.UPDATE_INTERVAL_US]

/-- C7 (amended): at each retarget a new target in `[0, 255]` is drawn and
`slopeStep = (target - current) / (1000 / freq)` — sized so the ramp completes
after `1000 / freq` ticks, which at 2.5 ticks per millisecond is 40% of the
`1000 / freq`-millisecond retarget period, so `currentValue` reaches the target
strictly before the next retarget whenever target ≠ current (not exactly at the
retarget instant).  Between retargets `currentValue` stays within the closed
interval spanned by its value at the retarget and the target, and it equals the
target at every tick at which the next retarget can be due (elapsed wall time
`k * 0.4 ms ≥ 1000 / freq ms`), hence exactly reaches the target at or before
the next retarget. -/
theorem c7_random_slope_ramp (s : QuadMod.RandomSlopeData) (rnd : ℕ) (frequency : ℚ)
    (hf : 0 < frequency) (hrnd : rnd ≤ 255) :
    ((QuadMod.slopeRetarget s rnd frequency).targetValue = (rnd : ℚ) ∧
      0 ≤ (rnd : ℚ) ∧ (rnd : ℚ) ≤ 255) ∧
    (QuadMod.slopeRetarget s rnd frequency).slopeStep =
      ((rnd : ℚ) - s.currentValue) / (1000 / frequency) ∧
    (∀ k : ℕ,
      min s.currentValue (rnd : ℚ) ≤
        (QuadMod.slopeTick^[k] (QuadMod.slopeRetarget s rnd frequency)).currentValue ∧
      (QuadMod.slopeTick^[k] (QuadMod.slopeRetarget s rnd frequency)).currentValue ≤
        max s.currentValue (rnd : ℚ)) ∧
    (∀ k : ℕ, 1000 / frequency ≤ (k : ℚ) * ((QuadMod.UPDATE_INTERVAL_US : ℚ) / 1000) →
      (QuadMod.slopeTick^[k] (QuadMod.slopeRetarget s rnd frequency)).currentValue =
        (rnd : ℚ)) := by
  rcases s with ⟨c0, tgt, d0⟩
  dsimp only
  set T : ℚ := 1000 / frequency with hT
  have hTpos : 0 < T := by positivity
  have hretarget : QuadMod.slopeRetarget ⟨c0, tgt, d0⟩ rnd frequency =
      (⟨c0, (rnd : ℚ), ((rnd : ℚ) - c0) / T⟩ : QuadMod.RandomSlopeData) := rfl
  have hrnd255 : (rnd : ℚ) ≤ 255 := by exact_mod_cast hrnd
  refine ⟨⟨rfl, Nat.cast_nonneg rnd, hrnd255⟩, rfl, ?_, ?_⟩ <;> rw [hretarget]
  · intro k
    rcases lt_trichotomy c0 ((rnd : ℚ)) with hc | hc | hc
    · have hd : 0 < ((rnd : ℚ) - c0) / T := div_pos (by linarith) hTpos
      rw [QuadMod.slopeTick_mk_up c0 (rnd : ℚ) _ hd (le_of_lt hc) k]
      have hkd : 0 ≤ (k : ℚ) * (((rnd : ℚ) - c0) / T) := by positivity
      constructor
      · dsimp only
        rw [min_eq_left (le_of_lt hc)]
        exact le_min (by linarith) (by linarith [min_le_right (c0 + (k : ℚ) * (((rnd : ℚ) - c0) / T)) (rnd : ℚ), min_le_left (c0 + (k : ℚ) * (((rnd : ℚ) - c0) / T)) (rnd : ℚ)])
      · dsimp only
        rw [max_eq_right (le_of_lt hc)]
        exact min_le_right _ _
    · have hd0 : ((rnd : ℚ) - c0) / T = 0 := by rw [← hc]; simp
      rw [hd0, QuadMod.slopeTick_mk_zero c0 (rnd : ℚ) k]
      dsimp only
      rw [← hc]
      simp
    · have hd : ((rnd : ℚ) - c0) / T < 0 :=
        div_neg_of_neg_of_pos (by linarith) hTpos
      rw [QuadMod.slopeTick_mk_down c0 (rnd : ℚ) _ hd (le_of_lt hc) k]
      have hkd : (k : ℚ) * (((rnd : ℚ) - c0) / T) ≤ 0 := by
        apply mul_nonpos_of_nonneg_of_nonpos (Nat.cast_nonneg k) (le_of_lt hd)
      constructor
      · dsimp only
        rw [min_eq_right (le_of_lt hc)]
        exact le_max_right _ _
      · dsimp only
        rw [max_eq_left (le_of_lt hc)]
        exact max_le (by linarith) (by linarith)
  · intro k hk
    have hms : ((QuadMod.UPDATE_INTERVAL_US : ℕ) : ℚ) / 1000 = 2 / 5 := by
      norm_num [QuadMod.UPDATE_INTERVAL_US]
    rw [hms] at hk
    have hTk : T ≤ (k : ℚ) := by
      have hk0 : (0 : ℚ) ≤ (k : ℚ) := Nat.cast_nonneg k
      linarith
    rcases lt_trichotomy c0 ((rnd : ℚ)) with hc | hc | hc
    · have hd : 0 < ((rnd : ℚ) - c0) / T := div_pos (by linarith) hTpos
      rw [QuadMod.slopeTick_mk_up c0 (rnd : ℚ) _ hd (le_of_lt hc) k]
      dsimp only
      refine min_eq_right ?_
      have h1 : T * ((rnd : ℚ) - c0) ≤ (k : ℚ) * ((rnd : ℚ) - c0) :=
        mul_le_mul_of_nonneg_right hTk (by linarith)
      have h2 : ((rnd : ℚ) - c0) ≤ (k : ℚ) * (((rnd : ℚ) - c0) / T) := by
        rw [mul_div_assoc'] at *
        rw [le_div_iff hTpos]
        linarith
      linarith
    · have hd0 : ((rnd : ℚ) - c0) / T = 0 := by rw [← hc]; simp
      rw [hd0, QuadMod.slopeTick_mk_zero c0 (rnd : ℚ) k]
      exact hc
    · have hd : ((rnd : ℚ) - c0) / T < 0 :=
        div_neg_of_neg_of_pos (by linarith) hTpos
      rw [QuadMod.slopeTick_mk_down c0 (rnd : ℚ) _ hd (le_of_lt hc) k]
      dsimp only
      refine max_eq_right ?_
      have h1 : T * (c0 - (rnd : ℚ)) ≤ (k : ℚ) * (c0 - (rnd : ℚ)) :=
        mul_le_mul_of_nonneg_right hTk (by linarith)
      have h2 : (k : ℚ) * (((rnd : ℚ) - c0) / T) ≤ ((rnd : ℚ) - c0) := by
        rw [mul_div_assoc']
        rw [div_le_iff hTpos]
        nlinarith
      linarith

/-- Witness for C7: channel state `⟨0, 0, 0⟩`, drawn target 255, frequency 1 Hz;
at tick 2500 (the first tick at which 1000 ms have elapsed, so the next retarget
is due) the value equals the target 255. -/
theorem c7_random_slope_ramp_witness :
    (QuadMod.slopeTick^[2500] (QuadMod.slopeRetarget ⟨0, 0, 0⟩ 255 1)).currentValue =
      ((255 : ℕ) : ℚ) :=
  (c7_random_slope_ramp ⟨0, 0, 0⟩ 255 1 (by norm_num) (by norm_num)).2.2.2 2500
    (by norm_num [QuadMod.UPDATE_INTERVAL_US])

/-- C10: starting from the zero-initialized Random Slope state, every drawn
target lies in `[0, 255]` and the sign-aware clamp keeps `currentValue` within
`[0, 255]` after every update step (with or without a retarget), so the
narrowing of `currentValue` to an unsigned 8-bit output sample never wraps an
out-of-range value: on `[0, 255]` the cast is plain truncation. -/
theorem c10_random_slope_output_range :
    (QuadMod.initRandomSlope.currentValue = 0 ∧ QuadMod.initRandomSlope.targetValue = 0) ∧
    (∀ (s : QuadMod.RandomSlopeData) (retargetDue : Bool) (rnd : ℕ) (frequency : ℚ),
      rnd ≤ 255 →
      0 ≤ s.currentValue → s.currentValue ≤ 255 →
      0 ≤ s.targetValue → s.targetValue ≤ 255 →
      0 ≤ (QuadMod.updateRandomSlope s retargetDue rnd frequency).currentValue ∧
      (QuadMod.updateRandomSlope s retargetDue rnd frequency).currentValue ≤ 255 ∧
      0 ≤ (QuadMod.updateRandomSlope s retargetDue rnd frequency).targetValue ∧
      (QuadMod.updateRandomSlope s retargetDue rnd frequency).targetValue ≤ 255) ∧
    (∀ v : ℚ, 0 ≤ v → v ≤ 255 →
      QuadMod.toUInt8 v = Int.toNat ⌊v⌋ ∧ QuadMod.toUInt8 v ≤ 255) := by
  refine ⟨⟨rfl, rfl⟩, ?_, ?_⟩
  · intro s retargetDue rnd frequency hrnd h0 h1 ht0 ht1
    have hrnd0 : (0 : ℚ) ≤ (rnd : ℚ) := Nat.cast_nonneg rnd
    have hrnd255 : (rnd : ℚ) ≤ 255 := by exact_mod_cast hrnd
    rw [QuadMod.updateRandomSlope]
    set pre := if retargetDue then QuadMod.slopeRetarget s rnd frequency else s with hpre
    have hbox : 0 ≤ pre.currentValue ∧ pre.currentValue ≤ 255 ∧
        0 ≤ pre.targetValue ∧ pre.targetValue ≤ 255 := by
      rw [hpre]
      cases retargetDue
      · rw [if_neg (by decide)]
        exact ⟨h0, h1, ht0, ht1⟩
      · rw [if_pos rfl]
        exact ⟨h0, h1, hrnd0, hrnd255⟩
    obtain ⟨hb0, hb1, hb2, hb3⟩ := hbox
    obtain ⟨⟨hc0, hc1⟩, hteq⟩ := QuadMod.slopeTick_box pre hb0 hb1 hb2 hb3
    rw [hteq]
    exact ⟨hc0, hc1, hb2, hb3⟩
  · intro v hv0 hv255
    have hfl : ⌊v⌋ ≤ 255 := by
      have h := Int.floor_le_floor hv255
      simpa using h
    have hlt : Int.toNat ⌊v⌋ < 256 := by omega
    simp only [QuadMod.toUInt8]
    exact ⟨Nat.mod_eq_of_lt hlt, by omega⟩

/-- Witness for C10: one update step from the freshly initialized state with a
retarget drawing target 255 at 1 Hz, plus the cast at the concrete value 200.5. -/
theorem c10_random_slope_output_range_witness :
    (0 ≤ (QuadMod.updateRandomSlope QuadMod.initRandomSlope true 255 1).currentValue ∧
     (QuadMod.updateRandomSlope QuadMod.initRandomSlope true 255 1).currentValue ≤ 255 ∧
     0 ≤ (QuadMod.updateRandomSlope QuadMod.initRandomSlope true 255 1).targetValue ∧
     (QuadMod.updateRandomSlope QuadMod.initRandomSlope true 255 1).targetValue ≤ 255) ∧
    (QuadMod.toUInt8 200.5 = Int.toNat ⌊(200.5 : ℚ)⌋ ∧ QuadMod.toUInt8 200.5 ≤ 255) :=
  ⟨c10_random_slope_output_range.2.1 QuadMod.initRandomSlope true 255 1
      (by norm_num) (by norm_num [QuadMod.initRandomSlope])
      (by norm_num [QuadMod.initRandomSlope]) (by norm_num [QuadMod.initRandomSlope])
      (by norm_num [QuadMod.initRandomSlope]),
   c10_random_slope_output_range.2.2 200.5 (by norm_num) (by norm_num)⟩
